import Mathlib

/-!
Verification of the LicenseView metric-derivation, alerting, forecasting,
report-generation and configuration-loading logic, shallowly embedded from
the Python sources (`zerto/data.py`, `zerto/output.py`, `zerto/config.py`).
Machine floats are modelled as exact rationals; Python `round`/format
rounding is modelled as round-half-to-even, Python `int()` as truncation
toward zero.
-/

/-- Round a rational to the nearest integer, ties to even
(the semantics of Python `round` and of `%.1f` formatting). -/
def roundHalfEven (q : ℚ) : ℤ :=
  let n := ⌊q⌋
  let frac := q - (n : ℚ)
  if frac < 1/2 then n
  else if 1/2 < frac then n + 1
  else if n % 2 = 0 then n else n + 1

/-- Python `round(x, 2)`: round to two decimal places. -/
def pyRound2 (x : ℚ) : ℚ := (roundHalfEven (x * 100) : ℚ) / 100

/-- Python `int(x)` on a rational: truncation toward zero. -/
def ratTrunc (q : ℚ) : ℤ := if q < 0 then -⌊-q⌋ else ⌊q⌋

/-- Embeds `zerto/data.py calculate_utilization_pct`: 0.0 when `entitled_vms <= 0`,
otherwise `round(protected_vms / entitled_vms * 100, 2)`. -/
def calculate_utilization_pct (protected_vms entitled_vms : ℤ) : ℚ :=
  if entitled_vms ≤ 0 then 0
  else pyRound2 ((protected_vms : ℚ) / (entitled_vms : ℚ) * 100)

/-- The expiry step component of `calculate_risk_score`
(`zerto/data.py` lines 37-44). -/
def expiryScore (days_to_expiry : ℤ) : ℤ :=
  if days_to_expiry ≤ 30 then 50
  else if days_to_expiry ≤ 90 then 30
  else if days_to_expiry ≤ 365 then 15
  else 5

/-- Embeds `zerto/data.py calculate_risk_score`:
`min(int(min(utilization_pct / 100, 1.0) * 50 + expiry_score), 100)`. -/
def calculate_risk_score (utilization_pct : ℚ) (days_to_expiry : ℤ) : ℤ :=
  let util_score : ℚ := min (utilization_pct / 100) 1 * 50
  let score := ratTrunc (util_score + (expiryScore days_to_expiry : ℚ))
  min score 100

/-- The spec wording of the risk-score formula: the FLOOR of
`min(utilization_pct, 100) / 100 * 50` plus the expiry component,
clamped to at most 100.  Stated from the spec, to be compared with
`calculate_risk_score` (which truncates toward zero instead). -/
def risk_score_floor_spec (utilization_pct : ℚ) (days_to_expiry : ℤ) : ℤ :=
  min ⌊min utilization_pct 100 / 100 * 50 + (expiryScore days_to_expiry : ℚ)⌋ 100

/-- An alert record as produced by `zerto/data.py generate_alerts`. -/
structure Alert where
  severity : String
  message : String
  recommendation : String
deriving DecidableEq

/-- The default / configured alert thresholds
(`{"utilization_warn": 0.80, "utilization_crit": 0.95}`). -/
structure AlertThresholds where
  utilization_warn : ℚ
  utilization_crit : ℚ

/-- Python `%.1f` formatting of a rational (round half to even to one
decimal place). -/
def formatFix1 (q : ℚ) : String :=
  let scaled := roundHalfEven (q * 10)
  let sign := if scaled < 0 then "-" else ""
  let n := scaled.natAbs
  sign ++ toString (n / 10) ++ "." ++ toString (n % 10)

/-- The utilization branch of `generate_alerts` (`zerto/data.py` 73-84):
one critical alert at or above the critical threshold, else one warning
alert at or above the warn threshold, else nothing. -/
def utilizationAlerts (utilization_pct warn_threshold crit_threshold : ℚ) : List Alert :=
  if utilization_pct ≥ crit_threshold then
    [{ severity := "critical",
       message := "Utilization critical (" ++ formatFix1 utilization_pct ++ "%)",
       recommendation := "Immediate action required: Review licensing tier and add capacity" }]
  else if utilization_pct ≥ warn_threshold then
    [{ severity := "warning",
       message := "Utilization high (" ++ formatFix1 utilization_pct ++ "%)",
       recommendation := "Audit and right-size your protected infrastructure" }]
  else []

/-- The expiry branch of `generate_alerts` (`zerto/data.py` 87-98):
one warning alert at 30 days or less, else one info alert at 90 days
or less, else nothing. -/
def expiryAlerts (days_to_expiry : ℤ) : List Alert :=
  if days_to_expiry ≤ 30 then
    [{ severity := "warning",
       message := "License expiring soon (" ++ toString days_to_expiry ++ " days)",
       recommendation := "License renewal action required" }]
  else if days_to_expiry ≤ 90 then
    [{ severity := "info",
       message := "License expiration reminder (" ++ toString days_to_expiry ++ " days)",
       recommendation := "Plan license renewal" }]
  else []

/-- Embeds `zerto/data.py generate_alerts`: utilization alerts followed by expiry
alerts, with thresholds defaulting to warn 0.80 and crit 0.95 (multiplied
by 100 before comparison with the percentage). -/
def generate_alerts (utilization_pct : ℚ) (days_to_expiry : ℤ)
    (alert_thresholds : Option AlertThresholds) : List Alert :=
  let t := alert_thresholds.getD { utilization_warn := 80 / 100, utilization_crit := 95 / 100 }
  utilizationAlerts utilization_pct (t.utilization_warn * 100) (t.utilization_crit * 100)
    ++ expiryAlerts days_to_expiry

/-- An alert stemming from the utilization branch, recognized by its
constant recommendation text. -/
def Alert.isUtilizationAlert (a : Alert) : Bool :=
  decide (a.recommendation = "Immediate action required: Review licensing tier and add capacity"
    ∨ a.recommendation = "Audit and right-size your protected infrastructure")

/-- An alert stemming from the expiry branch, recognized by its constant
recommendation text. -/
def Alert.isExpiryAlert (a : Alert) : Bool :=
  decide (a.recommendation = "License renewal action required"
    ∨ a.recommendation = "Plan license renewal")

lemma five_le_expiryScore (d : ℤ) : 5 ≤ expiryScore d := by
  unfold expiryScore
  split_ifs <;> norm_num

lemma ratTrunc_eq_floor (q : ℚ) (hq : 0 ≤ q) : ratTrunc q = ⌊q⌋ := by
  unfold ratTrunc
  rw [if_neg (not_lt.mpr hq)]

lemma five_le_calculate_risk_score (u : ℚ) (d : ℤ) (hu : 0 ≤ u) :
    5 ≤ calculate_risk_score u d := by
  have h2 : (5 : ℤ) ≤ expiryScore d := five_le_expiryScore d
  have h2q : (5 : ℚ) ≤ (expiryScore d : ℚ) := by exact_mod_cast h2
  have h1 : (0 : ℚ) ≤ min (u / 100) 1 * 50 :=
    mul_nonneg (le_min (by positivity) zero_le_one) (by norm_num)
  have hq : (5 : ℚ) ≤ min (u / 100) 1 * 50 + (expiryScore d : ℚ) := by linarith
  show 5 ≤ min (ratTrunc (min (u / 100) 1 * 50 + (expiryScore d : ℚ))) 100
  rw [ratTrunc_eq_floor _ (by linarith)]
  exact le_min (Int.le_floor.mpr (by exact_mod_cast hq)) (by norm_num)

/-- C1: `calculate_utilization_pct` returns 0 whenever the entitled count is
non-positive, and otherwise returns the protected/entitled ratio times 100
rounded to two decimal places; in particular 412 protected of 500 entitled
gives 82.4. -/
theorem calculate_utilization_pct_spec :
    (∀ p e : ℤ, e ≤ 0 → calculate_utilization_pct p e = 0)
    ∧ (∀ p e : ℤ, 0 < e →
        calculate_utilization_pct p e = pyRound2 ((p : ℚ) / (e : ℚ) * 100))
    ∧ calculate_utilization_pct 412 500 = (412 : ℚ) / 5 := by
  refine ⟨fun p e he => ?_, fun p e he => ?_, ?_⟩
  · unfold calculate_utilization_pct
    rw [if_pos he]
  · unfold calculate_utilization_pct
    rw [if_neg (not_le.mpr he)]
  · simp only [calculate_utilization_pct, pyRound2, roundHalfEven]
    norm_num

/-- Witness for C1 at entitled = -3 (non-positive branch) and at
protected = 412, entitled = 500 (positive branch). -/
theorem calculate_utilization_pct_spec_witness :
    calculate_utilization_pct 7 (-3) = 0
    ∧ calculate_utilization_pct 412 500 = pyRound2 ((412 : ℚ) / (500 : ℚ) * 100) :=
  ⟨calculate_utilization_pct_spec.1 7 (-3) (by decide),
   calculate_utilization_pct_spec.2.1 412 500 (by decide)⟩

/-- C2 counterexample: at utilization -50.5 and 400 days to expiry the code
(which truncates the combined score toward zero, Python `int`) returns -20,
while the claimed floor-based formula gives -21. -/
theorem calculate_risk_score_floor_counterexample :
    calculate_risk_score (-(101 : ℚ) / 2) 400 = -20
    ∧ risk_score_floor_spec (-(101 : ℚ) / 2) 400 = -21 := by
  constructor
  · simp only [calculate_risk_score, ratTrunc, expiryScore]
    norm_num
  · simp only [risk_score_floor_spec, expiryScore]
    norm_num

/-- C2 (amended): for every NON-NEGATIVE utilization percentage and every
days-to-expiry, `calculate_risk_score` equals the floor of
`min(utilization,100)/100*50` plus the step expiry component
(≤30→50, ≤90→30, ≤365→15, else 5), clamped to at most 100; in particular
utilization 82.4 with 180 days to expiry yields 56.  (For negative
fractional utilization the code truncates toward zero instead of
flooring, see the counterexample.) -/
theorem calculate_risk_score_spec :
    (∀ (u : ℚ) (d : ℤ), 0 ≤ u → calculate_risk_score u d = risk_score_floor_spec u d)
    ∧ calculate_risk_score ((412 : ℚ) / 5) 180 = 56 := by
  constructor
  · intro u d hu
    have h2q : (5 : ℚ) ≤ (expiryScore d : ℚ) := by exact_mod_cast five_le_expiryScore d
    have h1 : (0 : ℚ) ≤ min (u / 100) 1 * 50 :=
      mul_nonneg (le_min (by positivity) zero_le_one) (by norm_num)
    have hmin : min u 100 / 100 = min (u / 100) 1 := by
      rw [← min_div_div_right (by norm_num : (0 : ℚ) ≤ 100) u 100]
      norm_num
    show min (ratTrunc (min (u / 100) 1 * 50 + (expiryScore d : ℚ))) 100
        = min ⌊min u 100 / 100 * 50 + (expiryScore d : ℚ)⌋ 100
    rw [ratTrunc_eq_floor _ (by linarith), hmin]
  · simp only [calculate_risk_score, ratTrunc, expiryScore]
    norm_num

/-- Witness for C2 (amended) at utilization 0, 400 days to expiry. -/
theorem calculate_risk_score_spec_witness :
    calculate_risk_score 0 400 = risk_score_floor_spec 0 400 :=
  calculate_risk_score_spec.1 0 400 (le_refl 0)

/-- C4: for non-negative utilization and non-negative days to expiry the
risk score lies in the interval [0, 100]. -/
theorem calculate_risk_score_range :
    ∀ (u : ℚ) (d : ℤ), 0 ≤ u → 0 ≤ d →
      0 ≤ calculate_risk_score u d ∧ calculate_risk_score u d ≤ 100 := by
  intro u d hu _
  refine ⟨by linarith [five_le_calculate_risk_score u d hu], ?_⟩
  show min (ratTrunc (min (u / 100) 1 * 50 + (expiryScore d : ℚ))) 100 ≤ 100
  exact min_le_right _ _

/-- Witness for C4 at utilization 0 and 0 days to expiry. -/
theorem calculate_risk_score_range_witness :
    0 ≤ calculate_risk_score 0 0 ∧ calculate_risk_score 0 0 ≤ 100 :=
  calculate_risk_score_range 0 0 (le_refl 0) (le_refl 0)

/-- C9: for every non-negative utilization and every days-to-expiry
(positive or negative) the risk score is at least 5, because the expiry
component is never below 5 and the utilization component is non-negative;
this lower bound is strictly tighter than the documented clamp to 0. -/
theorem calculate_risk_score_lower_bound :
    ∀ (u : ℚ) (d : ℤ), 0 ≤ u → 5 ≤ calculate_risk_score u d :=
  fun u d hu => five_le_calculate_risk_score u d hu

/-- Witness for C9 at utilization 0 and 1000 days to expiry. -/
theorem calculate_risk_score_lower_bound_witness :
    5 ≤ calculate_risk_score 0 1000 :=
  calculate_risk_score_lower_bound 0 1000 (le_refl 0)

lemma utilizationAlerts_filter_util (u w c : ℚ) :
    (utilizationAlerts u w c).filter Alert.isUtilizationAlert = utilizationAlerts u w c := by
  unfold utilizationAlerts
  split_ifs <;> rfl

lemma utilizationAlerts_filter_expiry (u w c : ℚ) :
    (utilizationAlerts u w c).filter Alert.isExpiryAlert = [] := by
  unfold utilizationAlerts
  split_ifs <;> rfl

lemma expiryAlerts_filter_expiry (d : ℤ) :
    (expiryAlerts d).filter Alert.isExpiryAlert = expiryAlerts d := by
  unfold expiryAlerts
  split_ifs <;> rfl

lemma expiryAlerts_filter_util (d : ℤ) :
    (expiryAlerts d).filter Alert.isUtilizationAlert = [] := by
  unfold expiryAlerts
  split_ifs <;> rfl

lemma generate_alerts_default_eq (u : ℚ) (d : ℤ) :
    generate_alerts u d none = utilizationAlerts u 80 95 ++ expiryAlerts d := by
  simp only [generate_alerts, Option.getD]
  norm_num

/-- C3: under the default thresholds, `generate_alerts` produces exactly one
critical utilization alert when utilization ≥ 95, else exactly one warning
utilization alert when utilization ≥ 80, else none, and independently
exactly one expiry warning alert when days-to-expiry ≤ 30, else one expiry
info alert when ≤ 90, else none; in particular utilization 96 yields one
critical and no warning utilization alert, 25 days yields an expiry
warning, and 200 days yields no expiry alert. -/
theorem generate_alerts_default_spec :
    (∀ (u : ℚ) (d : ℤ),
      ((generate_alerts u d none).filter Alert.isUtilizationAlert).map Alert.severity
        = (if u ≥ 95 then [("critical" : String)] else if u ≥ 80 then ["warning"] else [])
      ∧ ((generate_alerts u d none).filter Alert.isExpiryAlert).map Alert.severity
        = (if d ≤ 30 then [("warning" : String)] else if d ≤ 90 then ["info"] else []))
    ∧ (generate_alerts 96 200 none).map Alert.severity = ["critical"]
    ∧ (generate_alerts 50 25 none).map Alert.severity = ["warning"]
    ∧ (generate_alerts 50 200 none).map Alert.severity = [] := by
  refine ⟨fun u d => ⟨?_, ?_⟩, ?_, ?_, ?_⟩
  · rw [generate_alerts_default_eq, List.filter_append, utilizationAlerts_filter_util,
      expiryAlerts_filter_util, List.append_nil]
    unfold utilizationAlerts
    split_ifs <;> simp
  · rw [generate_alerts_default_eq, List.filter_append, utilizationAlerts_filter_expiry,
      expiryAlerts_filter_expiry, List.nil_append]
    unfold expiryAlerts
    split_ifs <;> simp
  · rw [generate_alerts_default_eq]
    norm_num [utilizationAlerts, expiryAlerts]
  · rw [generate_alerts_default_eq]
    norm_num [utilizationAlerts, expiryAlerts]
  · rw [generate_alerts_default_eq]
    norm_num [utilizationAlerts, expiryAlerts]

/-- Convert a day count (days since 1970-01-01, proleptic Gregorian) to a
(year, month, day) triple; models the date part of Python `datetime`
arithmetic. -/
def civilFromDays (z0 : ℤ) : ℤ × ℕ × ℕ :=
  let z := z0 + 719468
  let era := Int.fdiv z 146097
  let doe := (z - era * 146097).toNat
  let yoe := (doe - doe / 1460 + doe / 36524 - doe / 146096) / 365
  let y := (yoe : ℤ) + era * 400
  let doy := doe - (365 * yoe + yoe / 4 - yoe / 100)
  let mp := (5 * doy + 2) / 153
  let d := doy - (153 * mp + 2) / 5 + 1
  let m := if mp < 10 then mp + 3 else mp - 9
  (if m ≤ 2 then y + 1 else y, m, d)

/-- Left-pad a numeral string with zeros to the given width. -/
def zeroPad (w : ℕ) (s : String) : String :=
  String.mk (List.replicate (w - s.length) (Char.ofNat 48)) ++ s

/-- Python `strftime("%Y-%m-%d")` on the date that is `days` days past
1970-01-01. -/
def formatYMD (days : ℤ) : String :=
  let c := civilFromDays days
  zeroPad 4 (toString c.1) ++ "-" ++ zeroPad 2 (toString c.2.1) ++ "-"
    ++ zeroPad 2 (toString c.2.2)

/-- Embeds `zerto/data.py forecast_runout_date`: "N/A" without at least three
seven-day samples; "Stable"/"Stable (decreasing)" when the first-to-last
delta is zero/negative; otherwise the date 90 days from now.  `now_days`
makes the Python `datetime.now()` call explicit; `entitled_vms` is
accepted but never used, exactly as in the source. -/
def forecast_runout_date (now_days : ℤ) (history : List (String × List ℤ))
    (entitled_vms : ℤ) : String :=
  if history.isEmpty then "N/A"
  else match history.lookup ("days_7") with
  | none => "N/A"
  | some trend =>
    if trend.length < 3 then "N/A"
    else if trend.length < 2 then "N/A"
    else
      let delta := trend.getD (trend.length - 1) 0 - trend.getD 0 0
      if delta = 0 then "Stable"
      else if delta < 0 then "Stable (decreasing)"
      else
        let rate : ℚ := (delta : ℚ) / 7
        if rate ≤ 0 then "N/A"
        else formatYMD (now_days + 90)

/-- C5: `forecast_runout_date` returns "N/A" when the history lacks a
"days_7" list of at least three samples; with such a list it returns
"Stable" when the last sample equals the first, "Stable (decreasing)" when
it is smaller, and otherwise the date exactly 90 days from now, regardless
of the magnitude of the growth. -/
theorem forecast_runout_date_spec :
    ∀ (now : ℤ) (h : List (String × List ℤ)) (e : ℤ),
      (h.lookup ("days_7") = none → forecast_runout_date now h e = "N/A")
      ∧ (∀ t, h.lookup ("days_7") = some t → t.length < 3 →
          forecast_runout_date now h e = "N/A")
      ∧ (∀ t, h.lookup ("days_7") = some t → 3 ≤ t.length →
          (t.getD (t.length - 1) 0 - t.getD 0 0 = 0 →
            forecast_runout_date now h e = "Stable")
          ∧ (t.getD (t.length - 1) 0 - t.getD 0 0 < 0 →
            forecast_runout_date now h e = "Stable (decreasing)")
          ∧ (0 < t.getD (t.length - 1) 0 - t.getD 0 0 →
            forecast_runout_date now h e = formatYMD (now + 90))) := by
  intro now h e
  match h with
  | [] => exact ⟨fun _ => rfl, fun t ht => by simp at ht, fun t ht => by simp at ht⟩
  | p :: hs =>
    have hne : ((p :: hs : List (String × List ℤ)).isEmpty) = false := rfl
    refine ⟨fun hl => ?_, fun t hl hlen => ?_, fun t hl hlen => ?_⟩
    · unfold forecast_runout_date
      rw [hne, hl]
      rfl
    · unfold forecast_runout_date
      rw [hne, hl]
      simp only [if_pos hlen]
      rfl
    · have hlen2 : ¬ t.length < 3 := not_lt.mpr hlen
      have hlen3 : ¬ t.length < 2 := not_lt.mpr (le_trans (by norm_num) hlen)
      refine ⟨fun hδ => ?_, fun hδ => ?_, fun hδ => ?_⟩
      · unfold forecast_runout_date
        rw [hne, hl]
        simp only [if_neg hlen2, if_neg hlen3, hδ, if_pos rfl]
        rfl
      · unfold forecast_runout_date
        rw [hne, hl]
        simp only [if_neg hlen2, if_neg hlen3]
        rw [if_neg (by omega : ¬ t.getD (t.length - 1) 0 - t.getD 0 0 = 0),
          if_pos hδ]
        rfl
      · have hpos : (0 : ℚ) < ((t.getD (t.length - 1) 0 - t.getD 0 0 : ℤ) : ℚ) := by
          exact_mod_cast hδ
        have hrate : ¬ ((t.getD (t.length - 1) 0 - t.getD 0 0 : ℤ) : ℚ) / 7 ≤ 0 := by
          push_neg
          positivity
        unfold forecast_runout_date
        rw [hne, hl]
        simp only [if_neg hlen2, if_neg hlen3]
        rw [if_neg (by omega : ¬ t.getD (t.length - 1) 0 - t.getD 0 0 = 0),
          if_neg (by omega : ¬ t.getD (t.length - 1) 0 - t.getD 0 0 < 0),
          if_neg hrate]
        rfl

/-- Witness for C5: three growing samples produce the 90-days-ahead date;
two samples produce "N/A"; a flat series produces "Stable". -/
theorem forecast_runout_date_spec_witness :
    forecast_runout_date 0 [(("days_7"), [1, 2, 4])] 500 = formatYMD (0 + 90)
    ∧ forecast_runout_date 0 [(("days_7"), [1, 2])] 500 = "N/A"
    ∧ forecast_runout_date 0 [(("days_7"), [2, 3, 2])] 500 = "Stable" :=
  ⟨(((forecast_runout_date_spec 0 [(("days_7"), [1, 2, 4])] 500).2.2
      [1, 2, 4] rfl (by decide)).2.2 (by decide)),
   ((forecast_runout_date_spec 0 [(("days_7"), [1, 2])] 500).2.1
      [1, 2] rfl (by decide)),
   (((forecast_runout_date_spec 0 [(("days_7"), [2, 3, 2])] 500).2.2
      [2, 3, 2] rfl (by decide)).1 (by decide))⟩

/-- C10: the result of `forecast_runout_date` never depends on the
`entitled_vms` argument, although forecasting when consumption reaches the
entitlement is the stated purpose of the function. -/
theorem forecast_runout_date_ignores_entitled :
    ∀ (now : ℤ) (h : List (String × List ℤ)) (e1 e2 : ℤ),
      forecast_runout_date now h e1 = forecast_runout_date now h e2 :=
  fun _ _ _ _ => rfl

/-- A parsed YAML/JSON value (the `Any` side of the Python dicts). -/
inductive Value where
  | null : Value
  | bool : Bool → Value
  | int : ℤ → Value
  | str : String → Value
  | list : List Value → Value
  | dict : List (String × Value) → Value

/-- The `meta` block of the JSON report written by
`zerto/output.py ReportGenerator.generate_json`. -/
structure JsonMeta where
  generated_at : String
  zvm_url : String
  zerto_version : String
  tool_version : String
  tls_verified : Bool

/-- The full JSON report object written by `generate_json`. -/
structure JsonReport where
  meta : JsonMeta
  license : Value
  consumption : Value
  metrics : Value
  history : Value

/-- Embeds `zerto/output.py ReportGenerator.generate_json`: the report object that
the method serializes to `licensing_utilization.json`.  `now_iso` makes the
Python `datetime.now().isoformat()` call explicit; the manager URL is not
among the inputs at all, and the `zvm_url` meta field is the constant
string "[REDACTED]". -/
def generate_json (now_iso : String) (license_data consumption_data metrics history : Value)
    (tls_verified : Bool) (zerto_version tool_version : String) : JsonReport :=
  { meta :=
      { generated_at := now_iso ++ "Z",
        zvm_url := "[REDACTED]",
        zerto_version := zerto_version,
        tool_version := tool_version,
        tls_verified := tls_verified },
    license := license_data,
    consumption := consumption_data,
    metrics := metrics,
    history := history }

/-- C6: the `zvm_url` field of the meta block of every JSON report is the
constant "[REDACTED]"; consequently any two runs, whatever their inputs
(in particular runs differing only in the manager URL, which is not even
an input of `generate_json`), produce the same meta `zvm_url`. -/
theorem generate_json_redacts_url :
    (∀ now l c m h tls zv tv,
      (generate_json now l c m h tls zv tv).meta.zvm_url = "[REDACTED]")
    ∧ (∀ now l c m h tls zv tv now2 l2 c2 m2 h2 tls2 zv2 tv2,
      (generate_json now l c m h tls zv tv).meta.zvm_url
        = (generate_json now2 l2 c2 m2 h2 tls2 zv2 tv2).meta.zvm_url) :=
  ⟨fun _ _ _ _ _ _ _ _ => rfl,
   fun _ _ _ _ _ _ _ _ _ _ _ _ _ _ _ _ => rfl⟩

/-- The error kinds raised by `zerto/config.py ConfigLoader._validate`:
the three `ValueError` cases, plus the `AttributeError` Python would raise
when the `auth` entry is not a mapping (`.get` on a non-dict). -/
inductive ConfigError where
  | emptyConfig : ConfigError
  | missingField : String → ConfigError
  | invalidAuthVersion : ConfigError
  | attributeError : ConfigError

/-- The required top-level fields checked by `_validate`. -/
def requiredFields : List String := ["zvm_url", "auth", "verify_tls", "output_dir"]

/-- Python `auth_version in ("10.x", "pre-10")`: only the two recognized
string literals compare equal. -/
def isRecognizedVersion : Value → Bool
  | Value.str s => s == "10.x" || s == "pre-10"
  | _ => false

/-- Embeds `zerto/config.py ConfigLoader._validate` on the parsed configuration
(`Optional[Dict[str, Any]]`): empty config, then each required field in
order, then `auth.version` against the two recognized literals. -/
def ConfigLoader.validate (cfg : Option (List (String × Value))) :
    Except ConfigError Unit :=
  match cfg with
  | none => Except.error ConfigError.emptyConfig
  | some d =>
    if d.isEmpty then Except.error ConfigError.emptyConfig
    else
      match requiredFields.find? (fun f => (d.lookup f).isNone) with
      | some f => Except.error (ConfigError.missingField f)
      | none =>
        match (d.lookup ("auth")).getD (Value.dict []) with
        | Value.dict ad =>
          if isRecognizedVersion ((ad.lookup ("version")).getD Value.null)
          then Except.ok ()
          else Except.error ConfigError.invalidAuthVersion
        | _ => Except.error ConfigError.attributeError

/-- The tail of `ConfigLoader.load`: validate the parsed configuration and
return it unchanged on success. -/
def ConfigLoader.load_validated (cfg : Option (List (String × Value))) :
    Except ConfigError (Option (List (String × Value))) :=
  match ConfigLoader.validate cfg with
  | Except.ok _ => Except.ok cfg
  | Except.error e => Except.error e

/-- True on the `error` constructor of `Except`. -/
def resultIsError {ε α : Type} : Except ε α → Bool
  | Except.error _ => true
  | Except.ok _ => false

/-- The condition under which, according to the spec, validation raises a
configuration error: empty configuration, a missing required field, or an
`auth.version` that is not one of the two recognized literals.  Stated
from the spec wording, to be compared with `ConfigLoader.validate`. -/
def config_error_spec (cfg : Option (List (String × Value))) : Bool :=
  match cfg with
  | none => true
  | some d =>
    d.isEmpty
    || requiredFields.any (fun f => (d.lookup f).isNone)
    || !(match d.lookup ("auth") with
         | some (Value.dict ad) =>
           (match ad.lookup ("version") with
            | some (Value.str s) => s == "10.x" || s == "pre-10"
            | _ => false)
         | _ => false)

/-- C8: validation fails exactly when the parsed configuration is empty,
one of the fields zvm_url / auth / verify_tls / output_dir is missing, or
auth.version is not one of the literals "10.x" and "pre-10" (a non-mapping
auth block surfaces as an error as well); otherwise load returns the
parsed configuration unchanged. -/
theorem config_validate_spec :
    ∀ cfg : Option (List (String × Value)),
      resultIsError (ConfigLoader.load_validated cfg) = config_error_spec cfg
      ∧ (config_error_spec cfg = false →
          ConfigLoader.load_validated cfg = Except.ok cfg) := by
  intro cfg
  match cfg with
  | none => exact ⟨rfl, fun h => by simp [config_error_spec] at h⟩
  | some d =>
    by_cases hd : d.isEmpty
    · refine ⟨?_, fun h => ?_⟩
      · simp [ConfigLoader.load_validated, ConfigLoader.validate, config_error_spec, hd,
          resultIsError]
      · simp [config_error_spec, hd] at h
    · cases hf : requiredFields.find? (fun f => (d.lookup f).isNone) with
      | some f =>
        have hmem : f ∈ requiredFields := List.mem_of_find?_eq_some hf
        have hpf := List.find?_some hf
        have hany : requiredFields.any (fun f => (d.lookup f).isNone) = true :=
          List.any_eq_true.mpr ⟨f, hmem, by simpa using hpf⟩
        refine ⟨?_, fun h => ?_⟩
        · simp [ConfigLoader.load_validated, ConfigLoader.validate, config_error_spec, hd,
            hf, hany, resultIsError]
        · simp [config_error_spec, hd, hany] at h
      | none =>
        have hany : requiredFields.any (fun f => (d.lookup f).isNone) = false := by
          rw [List.any_eq_false]
          intro x hx
          exact List.find?_eq_none.mp hf x hx
        obtain ⟨a, ha⟩ : ∃ a, d.lookup ("auth") = some a := by
          have hnone := List.find?_eq_none.mp hf ("auth") (by simp [requiredFields])
          cases hcase : d.lookup ("auth") with
          | none => simp [hcase] at hnone
          | some a => exact ⟨a, rfl⟩
        have herr : resultIsError (ConfigLoader.load_validated (some d))
              = config_error_spec (some d)
            ∧ (config_error_spec (some d) = false →
              ConfigLoader.load_validated (some d) = Except.ok (some d)) := by
          rcases a with _ | b | n | s | l | ad
          all_goals try
            (refine ⟨?_, fun h => ?_⟩
             · simp [ConfigLoader.load_validated, ConfigLoader.validate, config_error_spec,
                 hd, hf, hany, ha, resultIsError, isRecognizedVersion]
             · simp [config_error_spec, hd, hany, ha] at h)
          cases hv : ad.lookup ("version") with
          | none =>
            refine ⟨?_, fun h => ?_⟩
            · simp [ConfigLoader.load_validated, ConfigLoader.validate, config_error_spec,
                hd, hf, hany, ha, hv, resultIsError, isRecognizedVersion]
            · simp [config_error_spec, hd, hany, ha, hv] at h
          | some v =>
            have hstr : ∀ s2 : String, v = Value.str s2 →
                resultIsError (ConfigLoader.load_validated (some d))
                  = config_error_spec (some d)
                ∧ (config_error_spec (some d) = false →
                  ConfigLoader.load_validated (some d) = Except.ok (some d)) := by
              intro s2 hv2
              subst hv2
              by_cases hs : (s2 == "10.x" || s2 == "pre-10") = true
              · refine ⟨?_, fun h => ?_⟩
                · simp [ConfigLoader.load_validated, ConfigLoader.validate,
                    config_error_spec, hd, hf, hany, ha, hv, resultIsError,
                    isRecognizedVersion, hs]
                · simp [ConfigLoader.load_validated, ConfigLoader.validate,
                    isRecognizedVersion, ha, hv, hs, hd, hf]
              · refine ⟨?_, fun h => ?_⟩
                · simp [ConfigLoader.load_validated, ConfigLoader.validate,
                    config_error_spec, hd, hf, hany, ha, hv, resultIsError,
                    isRecognizedVersion, hs]
                · simp [config_error_spec, hd, hany, ha, hv, hs] at h
            rcases v with _ | b | n | s | l2 | ad2
            all_goals try
              (refine ⟨?_, fun h => ?_⟩
               · simp [ConfigLoader.load_validated, ConfigLoader.validate,
                   config_error_spec, hd, hf, hany, ha, hv, resultIsError,
                   isRecognizedVersion]
               · simp [config_error_spec, hd, hany, ha, hv] at h)
            exact hstr s rfl
        exact herr

/-- Witness for C8: a complete configuration with auth.version "10.x" is
accepted and returned unchanged. -/
theorem config_validate_spec_witness :
    config_error_spec (some
      [(("zvm_url"), Value.str ("https://zvm.example.local")),
       (("auth"), Value.dict [(("version"), Value.str ("10.x"))]),
       (("verify_tls"), Value.bool true),
       (("output_dir"), Value.str ("reports"))]) = false
    ∧ ConfigLoader.load_validated (some
      [(("zvm_url"), Value.str ("https://zvm.example.local")),
       (("auth"), Value.dict [(("version"), Value.str ("10.x"))]),
       (("verify_tls"), Value.bool true),
       (("output_dir"), Value.str ("reports"))]) = Except.ok (some
      [(("zvm_url"), Value.str ("https://zvm.example.local")),
       (("auth"), Value.dict [(("version"), Value.str ("10.x"))]),
       (("verify_tls"), Value.bool true),
       (("output_dir"), Value.str ("reports"))]) :=
  ⟨rfl,
   (config_validate_spec (some
      [(("zvm_url"), Value.str ("https://zvm.example.local")),
       (("auth"), Value.dict [(("version"), Value.str ("10.x"))]),
       (("verify_tls"), Value.bool true),
       (("output_dir"), Value.str ("reports"))])).2 rfl⟩


/-- The opening brace character of an environment-variable token. -/
def openBrace : Char := '\x7b'

/-- The closing brace character of an environment-variable token. -/
def closeBrace : Char := '\x7d'

/-- Scan up to the first closing brace: `scanName s = some (nm, r)` when
`s = nm ++ closeBrace :: r` with `nm` free of closing braces, and `none`
when `s` has no closing brace. -/
def scanName (s : List Char) : Option (List Char × List Char) :=
  match s with
  | [] => none
  | c :: rest =>
    if c = closeBrace then some ([], rest)
    else
      match scanName rest with
      | some (nm, r) => some (c :: nm, r)
      | none => none

lemma scanName_some (s nm r : List Char) (h : scanName s = some (nm, r)) :
    s = nm ++ closeBrace :: r ∧ ∀ c ∈ nm, c ≠ closeBrace := by
  induction s generalizing nm r with
  | nil => simp [scanName] at h
  | cons c rest ih =>
    unfold scanName at h
    by_cases hc : c = closeBrace
    · rw [if_pos hc] at h
      simp only [Option.some.injEq, Prod.mk.injEq] at h
      obtain ⟨h1, h2⟩ := h
      subst h1
      subst h2
      simp [hc]
    · rw [if_neg hc] at h
      cases hs : scanName rest with
      | none => rw [hs] at h; simp at h
      | some p =>
        obtain ⟨nm2, r2⟩ := p
        rw [hs] at h
        simp only [Option.some.injEq, Prod.mk.injEq] at h
        obtain ⟨h1, h2⟩ := h
        subst h1
        subst h2
        obtain ⟨ha, hb⟩ := ih nm2 r2 hs
        subst ha
        refine ⟨rfl, ?_⟩
        intro x hx
        rcases List.mem_cons.mp hx with hx1 | hx2
        · rw [hx1]; exact hc
        · exact hb x hx2

lemma scanName_append (nm rest : List Char) (hnm : ∀ c ∈ nm, c ≠ closeBrace) :
    scanName (nm ++ closeBrace :: rest) = some (nm, rest) := by
  induction nm with
  | nil => simp [scanName]
  | cons c nm2 ih =>
    have hc : c ≠ closeBrace := hnm c (List.mem_cons_self c nm2)
    have hnm2 : ∀ x ∈ nm2, x ≠ closeBrace := fun x hx => hnm x (List.mem_cons_of_mem c hx)
    rw [List.cons_append]
    unfold scanName
    rw [if_neg hc, ih hnm2]

/-- Match of the regex `\$\{([^\x7d]+)\}` body right after a `$`: an opening
brace, one or more non-closing-brace characters, a closing brace.  Returns
the captured name and the remaining input, or `none` when the regex does
not match at this position. -/
def splitToken (s : List Char) : Option (List Char × List Char) :=
  match s with
  | [] => none
  | c :: rest2 =>
    if c = openBrace then
      match scanName rest2 with
      | some (nm, r) => if nm.isEmpty then none else some (nm, r)
      | none => none
    else none

lemma splitToken_some (s nm rest3 : List Char)
    (h : splitToken s = some (nm, rest3)) :
    s = openBrace :: (nm ++ closeBrace :: rest3) := by
  match s with
  | [] => simp [splitToken] at h
  | c :: rest2 =>
    simp only [splitToken] at h
    by_cases hc : c = openBrace
    · rw [if_pos hc] at h
      cases hs : scanName rest2 with
      | none => rw [hs] at h; simp at h
      | some p =>
        obtain ⟨nm2, r2⟩ := p
        rw [hs] at h
        by_cases he : nm2.isEmpty
        · simp [he] at h
        · simp [he] at h
          obtain ⟨rfl, rfl⟩ := h
          rw [hc, (scanName_some rest2 nm2 r2 hs).1]
    · rw [if_neg hc] at h
      simp at h

lemma splitToken_some_lt (s nm rest3 : List Char)
    (h : splitToken s = some (nm, rest3)) : rest3.length < s.length := by
  have hchar := splitToken_some s nm rest3 h
  rw [hchar]
  simp only [List.length_cons, List.length_append]
  omega

/-- The scanner of `zerto/config.py ConfigLoader._expand_env_vars`
(`re.sub` with the pattern `\$\{([^\x7d]+)\}`): at each `$` try to match a
token; a matched token whose name is in the environment is replaced by the
value, a matched token whose name is not in the environment is reproduced
verbatim, and everything else is copied unchanged. -/
def expandAux (env : String → Option String) (l : List Char) : List Char :=
  match l with
  | [] => []
  | c :: rest =>
    if c = '$' then
      match hs : splitToken rest with
      | some (nm, rest3) =>
        (match env (String.mk nm) with
         | some v => v.data
         | none => '$' :: openBrace :: (nm ++ [closeBrace])) ++ expandAux env rest3
      | none => '$' :: expandAux env rest
    else c :: expandAux env rest
termination_by l.length
decreasing_by
  all_goals simp only [List.length_cons]
  all_goals first
    | omega
    | (have hlt := splitToken_some_lt _ _ _ (by assumption)
       omega)

/-- Embeds `ConfigLoader._expand_env_vars`: replace `$`-brace tokens by environment
values throughout the content string. -/
def expand_env_vars (env : String → Option String) (content : String) : String :=
  String.mk (expandAux env content.data)

lemma expandAux_nil (env : String → Option String) : expandAux env [] = [] := by
  simp [expandAux]

lemma expandAux_cons_ne (env : String → Option String) (c : Char) (rest : List Char)
    (hc : c ≠ '$') : expandAux env (c :: rest) = c :: expandAux env rest := by
  simp only [expandAux]
  rw [if_neg hc]

lemma expandAux_dollar_some (env : String → Option String) (rest nm rest3 : List Char)
    (hsp : splitToken rest = some (nm, rest3)) :
    expandAux env ('$' :: rest)
      = (match env (String.mk nm) with
         | some v => v.data
         | none => '$' :: openBrace :: (nm ++ [closeBrace])) ++ expandAux env rest3 := by
  simp only [expandAux, if_true]
  split
  next nm2 rest3b heq =>
    rw [hsp] at heq
    simp only [Option.some.injEq, Prod.mk.injEq] at heq
    obtain ⟨rfl, rfl⟩ := heq
    rfl
  next heq =>
    rw [hsp] at heq
    simp at heq

lemma expandAux_no_dollar_append (env : String → Option String) (pre s : List Char)
    (hpre : ∀ c ∈ pre, c ≠ '$') :
    expandAux env (pre ++ s) = pre ++ expandAux env s := by
  induction pre with
  | nil => simp
  | cons c pre2 ih =>
    have hc : c ≠ '$' := hpre c (List.mem_cons_self c pre2)
    have h2 : ∀ x ∈ pre2, x ≠ '$' := fun x hx => hpre x (List.mem_cons_of_mem c hx)
    rw [List.cons_append, expandAux_cons_ne env c (pre2 ++ s) hc, ih h2, List.cons_append]

lemma expandAux_token (env : String → Option String) (name post : List Char)
    (hname : name ≠ []) (hclose : ∀ c ∈ name, c ≠ closeBrace) :
    expandAux env ('$' :: openBrace :: (name ++ closeBrace :: post))
      = (match env (String.mk name) with
         | some v => v.data
         | none => '$' :: openBrace :: (name ++ [closeBrace])) ++ expandAux env post := by
  have hsplit : splitToken (openBrace :: (name ++ closeBrace :: post)) = some (name, post) := by
    simp only [splitToken, if_true]
    rw [scanName_append name post hclose]
    simp [List.isEmpty_iff, hname]
  exact expandAux_dollar_some env (openBrace :: (name ++ closeBrace :: post)) name post hsplit

/-- C7: environment-variable expansion replaces a well-formed token
`$\x7bNAME\x7d` (non-empty NAME free of closing braces) embedded between a
dollar-free prefix and an arbitrary suffix by the value of NAME when NAME
is set in the environment, and leaves the token verbatim when NAME is
unset; the rest of the text is processed unchanged around it. -/
theorem expand_env_vars_spec :
    ∀ (env : String → Option String) (pre name post : String),
      (∀ c ∈ pre.data, c ≠ '$') → name ≠ "" → (∀ c ∈ name.data, c ≠ closeBrace) →
      (∀ v, env name = some v →
        expand_env_vars env (pre ++ "$\x7b" ++ name ++ "\x7d" ++ post)
          = pre ++ v ++ expand_env_vars env post)
      ∧ (env name = none →
        expand_env_vars env (pre ++ "$\x7b" ++ name ++ "\x7d" ++ post)
          = pre ++ "$\x7b" ++ name ++ "\x7d" ++ expand_env_vars env post) := by
  intro env pre name post hpre hname hclose
  have hname2 : name.data ≠ [] := by
    intro hh
    exact hname (String.ext hh)
  have hdata : (pre ++ "$\x7b" ++ name ++ "\x7d" ++ post).data
      = pre.data ++ ('$' :: openBrace :: (name.data ++ closeBrace :: post.data)) := by
    simp only [String.data_append]
    simp [openBrace, closeBrace]
  have hmkname : String.mk name.data = name := rfl
  constructor
  · intro v hv
    refine String.ext ?_
    show expandAux env ((pre ++ "$\x7b" ++ name ++ "\x7d" ++ post).data)
        = (pre ++ v ++ expand_env_vars env post).data
    rw [hdata, expandAux_no_dollar_append env pre.data _ hpre,
      expandAux_token env name.data post.data hname2 hclose, hmkname, hv]
    simp [String.data_append, expand_env_vars, List.append_assoc]
  · intro hv
    refine String.ext ?_
    show expandAux env ((pre ++ "$\x7b" ++ name ++ "\x7d" ++ post).data)
        = (pre ++ "$\x7b" ++ name ++ "\x7d" ++ expand_env_vars env post).data
    rw [hdata, expandAux_no_dollar_append env pre.data _ hpre,
      expandAux_token env name.data post.data hname2 hclose, hmkname, hv]
    simp [String.data_append, expand_env_vars, List.append_assoc, openBrace, closeBrace]

/-- Witness for C7: a file text `$\x7bFOO\x7d` yields "bar" when FOO is
bound to "bar" in the environment, and is left verbatim when the
environment is empty. -/
theorem expand_env_vars_spec_witness :
    ("FOO" : String) ≠ ""
    ∧ expand_env_vars (fun n => if n = ("FOO" : String) then some ("bar") else none)
        ("$\x7bFOO\x7d") = "bar"
    ∧ expand_env_vars (fun _ => none) ("$\x7bFOO\x7d") = "$\x7bFOO\x7d" := by
  have hempty : ∀ env : String → Option String, expand_env_vars env "" = "" := by
    intro env
    show String.mk (expandAux env []) = ""
    rw [expandAux_nil]
  refine ⟨by decide, ?_, ?_⟩
  · have h := (expand_env_vars_spec (fun n => if n = ("FOO" : String) then some ("bar") else none)
      "" ("FOO") "" (by decide) (by decide) (by decide)).1 ("bar") (by simp)
    rw [hempty] at h
    exact h
  · have h := (expand_env_vars_spec (fun _ => none)
      "" ("FOO") "" (by decide) (by decide) (by decide)).2 rfl
    rw [hempty] at h
    exact h
